import Mathlib

/-!
Shallow embedding of the Hartree-Fock module of the iDEA package
(`src/iDEA/methods/hartree_fock.py`) and verification of its specification.

Arrays are modelled as `Fin N → ℚ` (densities) and `Matrix (Fin N) (Fin N) ℚ`
(operators and density matrices); numpy elementwise `+` and scalar `*` become
the pointwise operations of those types.  The modules the Hartree-Fock module
imports (`iDEA.methods.non_interacting`, `iDEA.methods.hartree`,
`iDEA.observables`) are not part of the sources under verification, so their
functions are modelled from the specification; each such definition carries a
doc comment saying so.  A store-passing second embedding makes the absence of
mutation in the straight-line Python code explicit.
-/

/-- Real-valued array of length `N`, one entry per grid point. -/
abbrev Vec (N : ℕ) := Fin N → ℚ

/-- Real-valued `N × N` array acting on wavefunctions sampled on the grid. -/
abbrev Mat (N : ℕ) := Matrix (Fin N) (Fin N) ℚ

namespace iDEA.system

/-- Modelled from the spec: the external, immutable System descriptor of
`iDEA.system` — grid spacing `dx`, number of grid points `N` (the index type
parameter), the external potential sampled on the grid, the pairwise
interaction kernel sampled on grid-point pairs, and the spin occupation
counts. -/
structure System (N : ℕ) where
  dx : ℚ
  v_ext : Fin N → ℚ
  v_int : Fin N → Fin N → ℚ
  up_count : ℕ
  down_count : ℕ

end iDEA.system

namespace iDEA.state

/-- Modelled from the spec: the external `iDEA.state.SingleBodyState` solution
artifact — up to `N` orbitals per spin channel with associated eigenvalues and
occupations. `up_orbitals i x` is the value of up-orbital `i` at grid point
`x`. -/
structure SingleBodyState (N : ℕ) where
  up_energies : Fin N → ℚ
  down_energies : Fin N → ℚ
  up_occupations : Fin N → ℚ
  down_occupations : Fin N → ℚ
  up_orbitals : Fin N → Fin N → ℚ
  down_orbitals : Fin N → Fin N → ℚ

end iDEA.state

open iDEA.system iDEA.state

namespace iDEA.observables

variable {N : ℕ}

/-- Modelled from the spec: `iDEA.observables.hartree_potential` (missing from
the sources) — the classical electrostatic potential generated by a density
via the system's pairwise interaction kernel, the quadrature scaled by the
grid spacing. -/
def hartree_potential (s : System N) (n : Vec N) : Vec N :=
  fun i => (∑ j, s.v_int i j * n j) * s.dx

/-- Modelled from the spec: `iDEA.observables.exchange_potential` (missing
from the sources) — the exchange potential computed from a density matrix via
the same interaction kernel applied off-diagonally (elementwise on the density
matrix, with the sign of an attractive exchange term). -/
def exchange_potential (s : System N) (p : Mat N) : Mat N :=
  Matrix.of fun i j => -(p i j * s.v_int i j)

/-- Modelled from the spec: `iDEA.observables.density` (missing from the
sources) — the density derived as the sum of squared orbitals weighted by
occupation, summed over both spin channels. -/
def density (s : System N) (st : SingleBodyState N) : Vec N :=
  fun x =>
    (∑ i, st.up_occupations i * st.up_orbitals i x ^ 2)
      + ∑ i, st.down_occupations i * st.down_orbitals i x ^ 2

/-- Modelled from the spec: the up-spin one-body reduced density matrix of a
state — occupation-weighted sum of orbital outer products. -/
def up_density_matrix (s : System N) (st : SingleBodyState N) : Mat N :=
  Matrix.of fun x y => ∑ i, st.up_occupations i * st.up_orbitals i x * st.up_orbitals i y

/-- Modelled from the spec: the down-spin one-body reduced density matrix of a
state — occupation-weighted sum of orbital outer products. -/
def down_density_matrix (s : System N) (st : SingleBodyState N) : Mat N :=
  Matrix.of fun x y => ∑ i, st.down_occupations i * st.down_orbitals i x * st.down_orbitals i y

/-- Modelled from the spec: `iDEA.observables.density_matrix` with
`return_spins=True` (missing from the sources) — the total density matrix
together with its spin-resolved parts. -/
def density_matrix (s : System N) (st : SingleBodyState N) : Mat N × Mat N × Mat N :=
  (up_density_matrix s st + down_density_matrix s st,
   up_density_matrix s st, down_density_matrix s st)

/-- Modelled from the spec: `iDEA.observables.hartree_energy` (missing from
the sources) — half the grid-spacing-weighted inner product of the density
with its Hartree potential (the classical self-interaction double-counted by
summing eigenvalues). -/
def hartree_energy (s : System N) (n v_h : Vec N) : ℚ :=
  (∑ x, n x * v_h x) * s.dx / 2

/-- Modelled from the spec: `iDEA.observables.exchange_energy` (missing from
the sources) — half the grid-spacing-squared-weighted elementwise inner
product of a density matrix with its exchange potential. -/
def exchange_energy (s : System N) (p v_x : Mat N) : ℚ :=
  (∑ x, ∑ y, p x y * v_x x y) * s.dx ^ 2 / 2

/-- Modelled from the spec: `iDEA.observables.single_particle_energy` (missing
from the sources) — the occupation-weighted sum of single-particle
eigenvalues over both spin channels. -/
def single_particle_energy (s : System N) (st : SingleBodyState N) : ℚ :=
  (∑ i, st.up_occupations i * st.up_energies i)
    + ∑ i, st.down_occupations i * st.down_energies i

end iDEA.observables

namespace iDEA.methods.non_interacting

variable {N : ℕ}

/-- Modelled from the spec: `iDEA.methods.non_interacting.kinetic_energy_operator`
(missing from the sources) — the discretized second-derivative operator scaled
by `-1/2`, banded, symmetric, a pure function of the grid descriptor (here the
three-point finite-difference stencil). -/
def kinetic_energy_operator (s : System N) : Mat N :=
  Matrix.of fun i j =>
    if (i : ℕ) = j then 1 / s.dx ^ 2
    else if (i : ℕ) + 1 = j ∨ (j : ℕ) + 1 = i then -(1 / (2 * s.dx ^ 2))
    else 0

/-- Modelled from the spec: `iDEA.methods.non_interacting.external_potential_operator`
(missing from the sources) — the diagonal operator holding the sampled
external potential. -/
def external_potential_operator (s : System N) : Mat N :=
  Matrix.diagonal s.v_ext

end iDEA.methods.non_interacting

namespace iDEA.methods.hartree

variable {N : ℕ}

/-- Modelled from the spec: `iDEA.methods.hartree.hartree_potential_operator`
(missing from the sources) — the Hartree potential generated by the given
density via the interaction kernel, returned as a diagonal operator. -/
def hartree_potential_operator (s : System N) (n : Vec N) : Mat N :=
  Matrix.diagonal (iDEA.observables.hartree_potential s n)

end iDEA.methods.hartree

namespace iDEA.methods.hartree_fock

variable {N : ℕ}

/-- Method name (module-level `name` string). -/
def name : String := "hartree_fock"

/-- Inherited by assignment from the non-interacting method. -/
def kinetic_energy_operator : System N → Mat N :=
  iDEA.methods.non_interacting.kinetic_energy_operator

/-- Inherited by assignment from the non-interacting method. -/
def external_potential_operator : System N → Mat N :=
  iDEA.methods.non_interacting.external_potential_operator

/-- Inherited by assignment from the Hartree method. -/
def hartree_potential_operator : System N → Vec N → Mat N :=
  iDEA.methods.hartree.hartree_potential_operator

/-- `exchange_potential_operator(s, p)` from the source: the exchange
potential of `p`, multiplied elementwise by the grid spacing `s.dx`. -/
def exchange_potential_operator (s : System N) (p : Mat N) : Mat N :=
  Matrix.of fun i j => iDEA.observables.exchange_potential s p i j * s.dx

/-- `hamiltonian(s, up_n, down_n, up_p, down_p, K=None, V=None)` from the
source: resolves `K` and `V`, builds the Hartree term from the total density
and three exchange terms, and returns `(H, up_H, down_H)`. -/
def hamiltonian (s : System N) (up_n down_n : Vec N) (up_p down_p : Mat N)
    (K V : Option (Mat N)) : Mat N × Mat N × Mat N :=
  let K := K.getD (kinetic_energy_operator s)
  let V := V.getD (external_potential_operator s)
  let Vh := hartree_potential_operator s (up_n + down_n)
  let Vx := exchange_potential_operator s (up_p + down_p)
  let up_Vx := exchange_potential_operator s up_p
  let down_Vx := exchange_potential_operator s down_p
  (K + V + Vh + Vx, K + V + Vh + up_Vx, K + V + Vh + down_Vx)

/-- `total_energy(s, state)` from the source: occupation-weighted eigenvalue
sum, minus the Hartree energy of the total density, minus each spin's
exchange energy. -/
def total_energy (s : System N) (state : SingleBodyState N) : ℚ :=
  let E := iDEA.observables.single_particle_energy s state
  let n := iDEA.observables.density s state
  let v_h := iDEA.observables.hartree_potential s n
  let E := E - iDEA.observables.hartree_energy s n v_h
  let pud := iDEA.observables.density_matrix s state
  let up_p := pud.2.1
  let down_p := pud.2.2
  let up_v_x := iDEA.observables.exchange_potential s up_p
  let down_v_x := iDEA.observables.exchange_potential s down_p
  let E := E - iDEA.observables.exchange_energy s up_p up_v_x
  let E := E - iDEA.observables.exchange_energy s down_p down_v_x
  E

/-- The type of the per-iteration Hamiltonian builder handed to the shared
non-interacting SCF loop. -/
abbrev HamiltonianBuilder (N : ℕ) :=
  System N → Vec N → Vec N → Mat N → Mat N → Option (Mat N) → Option (Mat N) →
    Mat N × Mat N × Mat N

/-- `solve(s, k=0, restricted=False, tol=1e-10)` from the source, parametric
in the shared non-interacting SCF loop it delegates to (that loop is an
external dependency whose contract, not code, is specified): it calls the
loop on `s`, this module's `hamiltonian`, and the given `k`, `restricted`,
`tol`. -/
def solve
    (niSolve : System N → HamiltonianBuilder N → ℕ → Bool → ℚ → SingleBodyState N)
    (s : System N) (k : ℕ) (restricted : Bool) (tol : ℚ) : SingleBodyState N :=
  niSolve s hamiltonian k restricted tol

/-- Default value of `solve`'s argument `k` in the source signature. -/
def solve_default_k : ℕ := 0

/-- Default value of `solve`'s argument `restricted` in the source
signature. -/
def solve_default_restricted : Bool := false

/-- Default value of `solve`'s argument `tol` (`1e-10`) in the source
signature. -/
def solve_default_tol : ℚ := 1 / 10 ^ 10

/-- A heap of numpy arrays: vector cells and matrix cells with bump
allocation, used to make the (absence of) mutation in the Python code
explicit. -/
structure Store (N : ℕ) where
  vmem : ℕ → Vec N
  vnext : ℕ
  mmem : ℕ → Mat N
  mnext : ℕ

/-- Allocate a fresh vector cell (numpy array creation). -/
def allocV (σ : Store N) (v : Vec N) : Store N × ℕ :=
  ({ σ with vmem := fun a => if a = σ.vnext then v else σ.vmem a, vnext := σ.vnext + 1 },
   σ.vnext)

/-- Allocate a fresh matrix cell (numpy array creation). -/
def allocM (σ : Store N) (A : Mat N) : Store N × ℕ :=
  ({ σ with mmem := fun a => if a = σ.mnext then A else σ.mmem a, mnext := σ.mnext + 1 },
   σ.mnext)

/-- Store-passing embedding of `hamiltonian`: arguments are addresses of
arrays in the store, every numpy operation of the source allocates a fresh
cell, and the three result addresses are returned. -/
def hamiltonianSt (s : System N) (σ0 : Store N)
    (a_up_n a_down_n a_up_p a_down_p : ℕ) (aK aV : Option ℕ) :
    Store N × (ℕ × ℕ × ℕ) :=
  let rK := match aK with
    | none => allocM σ0 (kinetic_energy_operator s)
    | some a => (σ0, a)
  let σ1 := rK.1
  let aK := rK.2
  let rV := match aV with
    | none => allocM σ1 (external_potential_operator s)
    | some a => (σ1, a)
  let σ2 := rV.1
  let aV := rV.2
  let r3 := allocV σ2 (σ2.vmem a_up_n + σ2.vmem a_down_n)
  let σ3 := r3.1
  let r4 := allocM σ3 (hartree_potential_operator s (σ3.vmem r3.2))
  let σ4 := r4.1
  let a_Vh := r4.2
  let r5 := allocM σ4 (σ4.mmem a_up_p + σ4.mmem a_down_p)
  let σ5 := r5.1
  let r6 := allocM σ5 (exchange_potential_operator s (σ5.mmem r5.2))
  let σ6 := r6.1
  let a_Vx := r6.2
  let r7 := allocM σ6 (exchange_potential_operator s (σ6.mmem a_up_p))
  let σ7 := r7.1
  let a_up_Vx := r7.2
  let r8 := allocM σ7 (exchange_potential_operator s (σ7.mmem a_down_p))
  let σ8 := r8.1
  let a_down_Vx := r8.2
  let r9 := allocM σ8 (σ8.mmem aK + σ8.mmem aV + σ8.mmem a_Vh + σ8.mmem a_Vx)
  let σ9 := r9.1
  let a_H := r9.2
  let r10 := allocM σ9 (σ9.mmem aK + σ9.mmem aV + σ9.mmem a_Vh + σ9.mmem a_up_Vx)
  let σ10 := r10.1
  let a_up_H := r10.2
  let r11 := allocM σ10 (σ10.mmem aK + σ10.mmem aV + σ10.mmem a_Vh + σ10.mmem a_down_Vx)
  (r11.1, (a_H, a_up_H, r11.2))

/-- Store-passing embedding of `total_energy`: the observables allocate their
result arrays in the store; the energy accumulator is a scalar. -/
def total_energySt (s : System N) (σ0 : Store N)
    (state : SingleBodyState N) : Store N × ℚ :=
  let E := iDEA.observables.single_particle_energy s state
  let r1 := allocV σ0 (iDEA.observables.density s state)
  let σ1 := r1.1
  let a_n := r1.2
  let r2 := allocV σ1 (iDEA.observables.hartree_potential s (σ1.vmem a_n))
  let σ2 := r2.1
  let a_vh := r2.2
  let E := E - iDEA.observables.hartree_energy s (σ2.vmem a_n) (σ2.vmem a_vh)
  let r3 := allocM σ2 (iDEA.observables.up_density_matrix s state
    + iDEA.observables.down_density_matrix s state)
  let σ3 := r3.1
  let r4 := allocM σ3 (iDEA.observables.up_density_matrix s state)
  let σ4 := r4.1
  let a_up_p := r4.2
  let r5 := allocM σ4 (iDEA.observables.down_density_matrix s state)
  let σ5 := r5.1
  let a_down_p := r5.2
  let r6 := allocM σ5 (iDEA.observables.exchange_potential s (σ5.mmem a_up_p))
  let σ6 := r6.1
  let a_up_vx := r6.2
  let r7 := allocM σ6 (iDEA.observables.exchange_potential s (σ6.mmem a_down_p))
  let σ7 := r7.1
  let a_down_vx := r7.2
  let E := E - iDEA.observables.exchange_energy s (σ7.mmem a_up_p) (σ7.mmem a_up_vx)
  let E := E - iDEA.observables.exchange_energy s (σ7.mmem a_down_p) (σ7.mmem a_down_vx)
  (σ7, E)

end iDEA.methods.hartree_fock

open iDEA.methods.hartree_fock

/-- One store extends another when its allocation frontiers are no smaller
and every cell below the older frontiers holds its old value. -/
def StoreExtends {N : ℕ} (σ2 σ1 : Store N) : Prop :=
  σ1.vnext ≤ σ2.vnext ∧ σ1.mnext ≤ σ2.mnext
    ∧ (∀ b, b < σ1.vnext → σ2.vmem b = σ1.vmem b)
    ∧ (∀ c, c < σ1.mnext → σ2.mmem c = σ1.mmem c)

/-- Concrete two-point system used by witnesses. -/
def wSys : System 2 :=
  { dx := 1, v_ext := fun _ => 0, v_int := fun _ _ => 1, up_count := 1, down_count := 1 }

/-- Concrete density used by witnesses. -/
def wVec : Vec 2 := fun _ => 1

/-- Second concrete density used by witnesses. -/
def wVecB : Vec 2 := fun _ => 2

/-- Concrete symmetric density matrix used by witnesses. -/
def wMatA : Mat 2 := Matrix.of fun _ _ => 1

/-- Second concrete density matrix used by witnesses. -/
def wMatB : Mat 2 := Matrix.of fun _ _ => 0

/-- Concrete one-point system used by the store witness. -/
def wSys1 : System 1 :=
  { dx := 1, v_ext := fun _ => 0, v_int := fun _ _ => 1, up_count := 1, down_count := 1 }

/-- Concrete store with one vector cell and one matrix cell. -/
def wStore : Store 1 :=
  { vmem := fun _ _ => 0, vnext := 1, mmem := fun _ => Matrix.of fun _ _ => 0, mnext := 1 }

/-- Concrete state used by the store witness. -/
def wState : SingleBodyState 1 :=
  { up_energies := fun _ => 0, down_energies := fun _ => 0,
    up_occupations := fun _ => 0, down_occupations := fun _ => 0,
    up_orbitals := fun _ _ => 0, down_orbitals := fun _ _ => 0 }

theorem storeExtends_refl {N : ℕ} (σ : Store N) : StoreExtends σ σ :=
  ⟨le_refl _, le_refl _, fun _ _ => rfl, fun _ _ => rfl⟩

theorem storeExtends_allocV {N : ℕ} {σ1 σ : Store N} (v : Vec N)
    (h : StoreExtends σ1 σ) : StoreExtends (allocV σ1 v).1 σ := by
  obtain ⟨h1, h2, h3, h4⟩ := h
  refine ⟨?_, ?_, ?_, ?_⟩
  · exact le_trans h1 (Nat.le_succ _)
  · exact h2
  · intro b hb
    show (if b = σ1.vnext then v else σ1.vmem b) = σ.vmem b
    rw [if_neg (by omega)]
    exact h3 b hb
  · intro c hc
    exact h4 c hc

theorem storeExtends_allocM {N : ℕ} {σ1 σ : Store N} (A : Mat N)
    (h : StoreExtends σ1 σ) : StoreExtends (allocM σ1 A).1 σ := by
  obtain ⟨h1, h2, h3, h4⟩ := h
  refine ⟨?_, ?_, ?_, ?_⟩
  · exact h1
  · exact le_trans h2 (Nat.le_succ _)
  · intro b hb
    exact h3 b hb
  · intro c hc
    show (if c = σ1.mnext then A else σ1.mmem c) = σ.mmem c
    rw [if_neg (by omega)]
    exact h4 c hc

theorem hamiltonianSt_extends {N : ℕ} (s : System N) (σ : Store N)
    (a_up_n a_down_n a_up_p a_down_p : ℕ) (aK aV : Option ℕ) :
    StoreExtends (hamiltonianSt s σ a_up_n a_down_n a_up_p a_down_p aK aV).1 σ := by
  cases aK <;> cases aV
  · exact storeExtends_allocM _ (storeExtends_allocM _ (storeExtends_allocM _
      (storeExtends_allocM _ (storeExtends_allocM _ (storeExtends_allocM _
      (storeExtends_allocM _ (storeExtends_allocM _ (storeExtends_allocV _
      (storeExtends_allocM _ (storeExtends_allocM _ (storeExtends_refl σ)))))))))))
  · exact storeExtends_allocM _ (storeExtends_allocM _ (storeExtends_allocM _
      (storeExtends_allocM _ (storeExtends_allocM _ (storeExtends_allocM _
      (storeExtends_allocM _ (storeExtends_allocM _ (storeExtends_allocV _
      (storeExtends_allocM _ (storeExtends_refl σ))))))))))
  · exact storeExtends_allocM _ (storeExtends_allocM _ (storeExtends_allocM _
      (storeExtends_allocM _ (storeExtends_allocM _ (storeExtends_allocM _
      (storeExtends_allocM _ (storeExtends_allocM _ (storeExtends_allocV _
      (storeExtends_allocM _ (storeExtends_refl σ))))))))))
  · exact storeExtends_allocM _ (storeExtends_allocM _ (storeExtends_allocM _
      (storeExtends_allocM _ (storeExtends_allocM _ (storeExtends_allocM _
      (storeExtends_allocM _ (storeExtends_allocM _ (storeExtends_allocV _
      (storeExtends_refl σ)))))))))

theorem total_energySt_extends {N : ℕ} (s : System N) (σ : Store N)
    (state : SingleBodyState N) :
    StoreExtends (total_energySt s σ state).1 σ :=
  storeExtends_allocM _ (storeExtends_allocM _ (storeExtends_allocM _
    (storeExtends_allocM _ (storeExtends_allocM _ (storeExtends_allocV _
    (storeExtends_allocV _ (storeExtends_refl σ)))))))

theorem hamiltonianSt_fresh {N : ℕ} (s : System N) (σ : Store N)
    (a_up_n a_down_n a_up_p a_down_p : ℕ) (aK aV : Option ℕ) :
    σ.mnext ≤ (hamiltonianSt s σ a_up_n a_down_n a_up_p a_down_p aK aV).2.1
      ∧ σ.mnext ≤ (hamiltonianSt s σ a_up_n a_down_n a_up_p a_down_p aK aV).2.2.1
      ∧ σ.mnext ≤ (hamiltonianSt s σ a_up_n a_down_n a_up_p a_down_p aK aV).2.2.2 := by
  cases aK <;> cases aV
  · exact ⟨show σ.mnext ≤ σ.mnext + 7 by omega, show σ.mnext ≤ σ.mnext + 8 by omega,
      show σ.mnext ≤ σ.mnext + 9 by omega⟩
  · exact ⟨show σ.mnext ≤ σ.mnext + 6 by omega, show σ.mnext ≤ σ.mnext + 7 by omega,
      show σ.mnext ≤ σ.mnext + 8 by omega⟩
  · exact ⟨show σ.mnext ≤ σ.mnext + 6 by omega, show σ.mnext ≤ σ.mnext + 7 by omega,
      show σ.mnext ≤ σ.mnext + 8 by omega⟩
  · exact ⟨show σ.mnext ≤ σ.mnext + 5 by omega, show σ.mnext ≤ σ.mnext + 6 by omega,
      show σ.mnext ≤ σ.mnext + 7 by omega⟩

/-- C1: `hamiltonian(s, up_n, down_n, up_p, down_p)` returns the triple
`(H, up_H, down_H)` with `H = K + V + Vh + Vx`, `up_H = K + V + Vh + up_Vx`,
`down_H = K + V + Vh + down_Vx`, where `Vh` is the Hartree potential operator
of the total density `up_n + down_n`, `Vx` the exchange potential operator of
the total density matrix `up_p + down_p`, and `up_Vx`, `down_Vx` the exchange
potential operators of `up_p` and `down_p`. -/
theorem hamiltonian_components {N : ℕ} (s : System N) (up_n down_n : Vec N)
    (up_p down_p : Mat N) :
    hamiltonian s up_n down_n up_p down_p none none =
      (kinetic_energy_operator s + external_potential_operator s
         + hartree_potential_operator s (up_n + down_n)
         + exchange_potential_operator s (up_p + down_p),
       kinetic_energy_operator s + external_potential_operator s
         + hartree_potential_operator s (up_n + down_n)
         + exchange_potential_operator s up_p,
       kinetic_energy_operator s + external_potential_operator s
         + hartree_potential_operator s (up_n + down_n)
         + exchange_potential_operator s down_p) := rfl

/-- C2: `total_energy(s, state)` equals the occupation-weighted sum of
single-particle eigenvalues, minus the Hartree energy of the total density
and its Hartree potential, minus the up-spin exchange energy of the up-spin
density matrix and its exchange potential, minus the down-spin exchange
energy of the down-spin density matrix and its exchange potential. -/
theorem total_energy_decomposition {N : ℕ} (s : System N) (state : SingleBodyState N) :
    total_energy s state =
      ((∑ i, state.up_occupations i * state.up_energies i)
          + ∑ i, state.down_occupations i * state.down_energies i)
        - iDEA.observables.hartree_energy s (iDEA.observables.density s state)
            (iDEA.observables.hartree_potential s (iDEA.observables.density s state))
        - iDEA.observables.exchange_energy s (iDEA.observables.up_density_matrix s state)
            (iDEA.observables.exchange_potential s (iDEA.observables.up_density_matrix s state))
        - iDEA.observables.exchange_energy s (iDEA.observables.down_density_matrix s state)
            (iDEA.observables.exchange_potential s (iDEA.observables.down_density_matrix s state)) :=
  rfl

/-- C3: the spin-resolved Hamiltonians returned by `hamiltonian` differ only
in their exchange term — their difference is the difference of the two spin
exchange potential operators when the density matrices differ — and they are
equal exactly when `up_p = down_p`. -/
theorem spin_hamiltonians_differ_only_in_exchange {N : ℕ} (s : System N)
    (up_n down_n : Vec N) (up_p down_p : Mat N) (K V : Option (Mat N)) :
    (up_p ≠ down_p →
      (hamiltonian s up_n down_n up_p down_p K V).2.1
          - (hamiltonian s up_n down_n up_p down_p K V).2.2
        = exchange_potential_operator s up_p - exchange_potential_operator s down_p)
    ∧ (up_p = down_p →
      (hamiltonian s up_n down_n up_p down_p K V).2.1
        = (hamiltonian s up_n down_n up_p down_p K V).2.2) := by
  constructor
  · intro _
    show (K.getD (kinetic_energy_operator s) + V.getD (external_potential_operator s)
          + hartree_potential_operator s (up_n + down_n)
          + exchange_potential_operator s up_p)
        - (K.getD (kinetic_energy_operator s) + V.getD (external_potential_operator s)
          + hartree_potential_operator s (up_n + down_n)
          + exchange_potential_operator s down_p)
      = exchange_potential_operator s up_p - exchange_potential_operator s down_p
    abel
  · intro h
    subst h
    rfl

/-- C3 witness: at a concrete system with distinct density matrices the
difference of the spin Hamiltonians is the difference of the exchange
operators, and with equal density matrices the spin Hamiltonians agree. -/
theorem spin_hamiltonians_differ_only_in_exchange_witness :
    ((hamiltonian wSys wVec wVec wMatA wMatB none none).2.1
        - (hamiltonian wSys wVec wVec wMatA wMatB none none).2.2
      = exchange_potential_operator wSys wMatA - exchange_potential_operator wSys wMatB)
    ∧ (hamiltonian wSys wVec wVec wMatA wMatA none none).2.1
        = (hamiltonian wSys wVec wVec wMatA wMatA none none).2.2 :=
  ⟨(spin_hamiltonians_differ_only_in_exchange wSys wVec wVec wMatA wMatB none none).1
      (by decide),
   (spin_hamiltonians_differ_only_in_exchange wSys wVec wVec wMatA wMatA none none).2 rfl⟩

/-- C4: `solve` delegates to the shared non-interacting SCF loop with this
module's `hamiltonian` as the per-iteration builder and the same `k`,
`restricted`, `tol`; the source defaults are `k = 0`, `restricted = False`,
`tol = 1e-10`. -/
theorem solve_delegates {N : ℕ}
    (niSolve : System N → HamiltonianBuilder N → ℕ → Bool → ℚ → SingleBodyState N)
    (s : System N) (k : ℕ) (restricted : Bool) (tol : ℚ) :
    solve niSolve s k restricted tol = niSolve s hamiltonian k restricted tol
      ∧ solve_default_k = 0
      ∧ solve_default_restricted = false
      ∧ solve_default_tol = 1 / 10 ^ 10 :=
  ⟨rfl, rfl, rfl, rfl⟩

/-- C5: calling `hamiltonian` with precomputed
`K = kinetic_energy_operator(s)` and `V = external_potential_operator(s)`
returns exactly the same triple as calling it with `K = None`, `V = None`. -/
theorem hamiltonian_cached_operators_eq {N : ℕ} (s : System N)
    (up_n down_n : Vec N) (up_p down_p : Mat N) :
    hamiltonian s up_n down_n up_p down_p
        (some (kinetic_energy_operator s)) (some (external_potential_operator s))
      = hamiltonian s up_n down_n up_p down_p none none := rfl

/-- C6: for a symmetric density matrix `p`, `exchange_potential_operator(s, p)`
is the exchange potential computed by the interaction kernel, multiplied
elementwise by the grid spacing `s.dx`. -/
theorem exchange_operator_is_kernel_times_dx {N : ℕ} (s : System N) (p : Mat N)
    (hsymm : ∀ i j, p i j = p j i) :
    exchange_potential_operator s p = s.dx • iDEA.observables.exchange_potential s p := by
  funext i j
  simp only [exchange_potential_operator, Matrix.of_apply, Matrix.smul_apply, smul_eq_mul]
  ring

/-- C6 witness: the identity at a concrete system and concrete symmetric
density matrix. -/
theorem exchange_operator_is_kernel_times_dx_witness :
    exchange_potential_operator wSys wMatA
      = wSys.dx • iDEA.observables.exchange_potential wSys wMatA :=
  exchange_operator_is_kernel_times_dx wSys wMatA fun i j => rfl

/-- C7: the Hartree potential operator is linear in the density: for
non-negative scalars `a`, `b`,
`hartree_potential_operator s (a • n1 + b • n2)
  = a • hartree_potential_operator s n1 + b • hartree_potential_operator s n2`. -/
theorem hartree_potential_operator_linear {N : ℕ} (s : System N) (n1 n2 : Vec N)
    (a b : ℚ) (ha : 0 ≤ a) (hb : 0 ≤ b) :
    hartree_potential_operator s (a • n1 + b • n2)
      = a • hartree_potential_operator s n1 + b • hartree_potential_operator s n2 := by
  have key : iDEA.observables.hartree_potential s (a • n1 + b • n2)
      = a • iDEA.observables.hartree_potential s n1
        + b • iDEA.observables.hartree_potential s n2 := by
    funext i
    simp only [iDEA.observables.hartree_potential, Pi.add_apply, Pi.smul_apply, smul_eq_mul]
    rw [show (∑ j, s.v_int i j * (a * n1 j + b * n2 j))
        = a * (∑ j, s.v_int i j * n1 j) + b * (∑ j, s.v_int i j * n2 j) by
      rw [Finset.mul_sum, Finset.mul_sum, ← Finset.sum_add_distrib]
      exact Finset.sum_congr rfl fun j _ => by ring]
    ring
  simp only [hartree_potential_operator, iDEA.methods.hartree.hartree_potential_operator, key]
  rw [← Matrix.diagonal_smul, ← Matrix.diagonal_smul, Matrix.diagonal_add]
  rfl

/-- C7 witness: linearity at a concrete system, concrete densities and the
non-negative scalars `1` and `2`. -/
theorem hartree_potential_operator_linear_witness :
    hartree_potential_operator wSys ((1 : ℚ) • wVec + (2 : ℚ) • wVecB)
      = (1 : ℚ) • hartree_potential_operator wSys wVec
        + (2 : ℚ) • hartree_potential_operator wSys wVecB :=
  hartree_potential_operator_linear wSys wVec wVecB 1 2 (by norm_num) (by norm_num)

/-- C8: the Hartree potential operator of the all-zero density is the zero
operator. -/
theorem hartree_potential_operator_zero {N : ℕ} (s : System N) :
    hartree_potential_operator s (0 : Vec N) = (0 : Mat N) := by
  have h0 : iDEA.observables.hartree_potential s (0 : Vec N) = fun _ => 0 := by
    funext i
    simp [iDEA.observables.hartree_potential]
  simp [hartree_potential_operator, iDEA.methods.hartree.hartree_potential_operator, h0,
    Matrix.diagonal_zero]

/-- C9: noninterference across spin channels — two calls to `hamiltonian`
differing only in `down_p` return equal `up_H` components, and two calls
differing only in `up_p` return equal `down_H` components. -/
theorem hamiltonian_spin_noninterference {N : ℕ} (s : System N)
    (up_n down_n : Vec N) (up_p down_p up_p' down_p' : Mat N)
    (K V : Option (Mat N)) :
    (hamiltonian s up_n down_n up_p down_p K V).2.1
        = (hamiltonian s up_n down_n up_p down_p' K V).2.1
      ∧ (hamiltonian s up_n down_n up_p down_p K V).2.2
        = (hamiltonian s up_n down_n up_p' down_p K V).2.2 :=
  ⟨rfl, rfl⟩

/-- C10: neither `hamiltonian` nor `total_energy` mutates its inputs — in the
store-passing embedding every pre-existing array cell (address below the
allocation frontier) holds the same value after either call, and the three
arrays returned by `hamiltonian` live at fresh addresses. -/
theorem hamiltonian_total_energy_no_mutation {N : ℕ} (s : System N) (σ : Store N)
    (state : SingleBodyState N) (a_up_n a_down_n a_up_p a_down_p : ℕ)
    (aK aV : Option ℕ) (b c : ℕ) (hb : b < σ.vnext) (hc : c < σ.mnext) :
    ((hamiltonianSt s σ a_up_n a_down_n a_up_p a_down_p aK aV).1.vmem b = σ.vmem b
      ∧ (hamiltonianSt s σ a_up_n a_down_n a_up_p a_down_p aK aV).1.mmem c = σ.mmem c
      ∧ σ.mnext ≤ (hamiltonianSt s σ a_up_n a_down_n a_up_p a_down_p aK aV).2.1
      ∧ σ.mnext ≤ (hamiltonianSt s σ a_up_n a_down_n a_up_p a_down_p aK aV).2.2.1
      ∧ σ.mnext ≤ (hamiltonianSt s σ a_up_n a_down_n a_up_p a_down_p aK aV).2.2.2)
    ∧ ((total_energySt s σ state).1.vmem b = σ.vmem b
      ∧ (total_energySt s σ state).1.mmem c = σ.mmem c) := by
  obtain ⟨-, -, hv, hm⟩ := hamiltonianSt_extends s σ a_up_n a_down_n a_up_p a_down_p aK aV
  obtain ⟨hf1, hf2, hf3⟩ := hamiltonianSt_fresh s σ a_up_n a_down_n a_up_p a_down_p aK aV
  obtain ⟨-, -, hv2, hm2⟩ := total_energySt_extends s σ state
  exact ⟨⟨hv b hb, hm c hc, hf1, hf2, hf3⟩, hv2 b hb, hm2 c hc⟩

/-- C10 witness: at a concrete one-point system, store, addresses and state,
the pre-existing vector and matrix cells are unchanged by both calls and the
returned addresses are fresh. -/
theorem hamiltonian_total_energy_no_mutation_witness :
    ((hamiltonianSt wSys1 wStore 0 0 0 0 none none).1.vmem 0 = wStore.vmem 0
      ∧ (hamiltonianSt wSys1 wStore 0 0 0 0 none none).1.mmem 0 = wStore.mmem 0
      ∧ wStore.mnext ≤ (hamiltonianSt wSys1 wStore 0 0 0 0 none none).2.1
      ∧ wStore.mnext ≤ (hamiltonianSt wSys1 wStore 0 0 0 0 none none).2.2.1
      ∧ wStore.mnext ≤ (hamiltonianSt wSys1 wStore 0 0 0 0 none none).2.2.2)
    ∧ ((total_energySt wSys1 wStore wState).1.vmem 0 = wStore.vmem 0
      ∧ (total_energySt wSys1 wStore wState).1.mmem 0 = wStore.mmem 0) :=
  hamiltonian_total_energy_no_mutation wSys1 wStore wState 0 0 0 0 none none 0 0
    (by decide) (by decide)
